import Mathlib

/-!
Verification of the anthropometry-classification pipeline
(`procesar_tablas_visualizacion.py`, `filtros.py`, `utils.py`).

Measurement and boundary values are modelled as rationals (the Python code
uses floats only for ordinary arithmetic and order comparisons on finite
values, which ℚ reflects faithfully).  DataFrame rows become records, a
DataFrame column lookup on a joined row becomes a function `String → ℚ`,
and day-keyed reference-table joins become `Nat → Option ℚ` lookups
(`none` models an unmatched join, whose NaN never satisfies `<`).
-/

/- ----------------------------------------------------------------- -/
/- Constants from `utils.py`                                          -/
/- ----------------------------------------------------------------- -/

/-- `Z_SCORE_COLS['fenton']` from `utils.py`: the fixed ascending label
ordering of the Fenton boundary table. -/
def zScoreColsFenton : List String :=
  ["des_3Neg", "des_2Neg", "des_1Neg", "des_0", "des_1", "des_2", "des_3"]

/-- `Z_SCORE_COLS['who']` from `utils.py`. -/
def zScoreColsWho : List String :=
  ["des_2Neg", "des_1Neg", "des_0", "des_1", "des_2"]

/- ----------------------------------------------------------------- -/
/- Band classifier: `calcular_color_ant`                              -/
/- ----------------------------------------------------------------- -/

/-- The scan loop of `calcular_color_ant` (lines 24-31 of
`procesar_tablas_visualizacion.py`).  `fila` is the joined row giving each
z-score column's boundary value, `dicc` the color dictionary, and the
`Option String` argument carries `cols_z_scores[i-1]`, the label preceding
the one currently examined (`none` while `i = 0`). -/
def calcularColorAntLoop (value : ℚ) (fila : String → ℚ) (dicc : String → String) :
    Option String → List String → String × Option String
  | _, [] => (dicc "outlier_pos", some "outlier_pos")
  | prev, c :: rest =>
    if value < fila c then
      match prev with
      | none => (dicc "outlier_neg", none)
      | some p => (dicc (p ++ "_" ++ c), some p)
    else calcularColorAntLoop value fila dicc (some c) rest

/-- `calcular_color_ant(fila_ant, col_ant, cols_z_scores, dicc_color)`:
scans the labels in order and returns the `(color, lower-boundary label)`
pair of the first label whose boundary at this row's age exceeds `value`. -/
def calcular_color_ant (value : ℚ) (fila : String → ℚ)
    (colsZScores : List String) (dicc : String → String) : String × Option String :=
  calcularColorAntLoop value fila dicc none colsZScores

lemma calcularColorAntLoop_pos (value : ℚ) (fila : String → ℚ) (dicc : String → String) :
    ∀ (cols : List String) (prev : Option String),
      (∀ l ∈ cols, fila l ≤ value) →
      calcularColorAntLoop value fila dicc prev cols = (dicc "outlier_pos", some "outlier_pos") := by
  intro cols
  induction cols with
  | nil => intro prev _; rfl
  | cons c rest ih =>
    intro prev h
    have hc : fila c ≤ value := h c (List.mem_cons_self c rest)
    have hrest : ∀ l ∈ rest, fila l ≤ value := fun l hl => h l (List.mem_cons_of_mem c hl)
    simp only [calcularColorAntLoop, if_neg (not_lt.mpr hc)]
    exact ih (some c) hrest

lemma calcularColorAntLoop_skip (value : ℚ) (fila : String → ℚ) (dicc : String → String) :
    ∀ (pre : List String) (q : String) (rest : List String) (prev : Option String),
      (∀ l ∈ pre ++ [q], fila l ≤ value) →
      calcularColorAntLoop value fila dicc prev (pre ++ q :: rest) =
        calcularColorAntLoop value fila dicc (some q) rest := by
  intro pre
  induction pre with
  | nil =>
    intro q rest prev h
    have hq : fila q ≤ value := h q (by simp)
    simp only [List.nil_append, calcularColorAntLoop, if_neg (not_lt.mpr hq)]
  | cons a pre ih =>
    intro q rest prev h
    have ha : fila a ≤ value := h a (by simp)
    have h2 : ∀ l ∈ pre ++ [q], fila l ≤ value := by
      intro l hl
      exact h l (by simpa using Or.inr (by simpa using hl))
    simp only [List.cons_append, calcularColorAntLoop, if_neg (not_lt.mpr ha)]
    exact ih q rest (some a) h2

/-- C1.  The band classifier `calcular_color_ant` scans the boundary labels
in order at the given age and returns exactly one `(color, label)` pair
(it is a total function): if the value is below the first label's boundary
it returns the negative-outlier color with a null lower-boundary label; if
the first exceeding label has a positive index (the label list splits as
`pre ++ p :: c :: suf` with everything up to `p` not exceeding and `c`
exceeding) it returns the color keyed by the joined pair `p_c` with
lower-boundary label `p`; and if no label's boundary exceeds the value it
returns the positive-outlier color with label `outlier_pos`. -/
theorem c1_clasificador_bandas (tabla : Nat → String → ℚ) (edad : Nat) (value : ℚ)
    (dicc : String → String) (c p : String) (pre rest suf cols : List String) :
    (value < tabla edad c →
      calcular_color_ant value (tabla edad) (c :: rest) dicc = (dicc "outlier_neg", none)) ∧
    ((∀ l ∈ cols, tabla edad l ≤ value) →
      calcular_color_ant value (tabla edad) cols dicc = (dicc "outlier_pos", some "outlier_pos")) ∧
    ((∀ l ∈ pre ++ [p], tabla edad l ≤ value) → value < tabla edad c →
      calcular_color_ant value (tabla edad) (pre ++ p :: c :: suf) dicc =
        (dicc (p ++ "_" ++ c), some p)) := by
  refine ⟨?_, ?_, ?_⟩
  · intro h
    simp only [calcular_color_ant, calcularColorAntLoop, if_pos h]
  · intro h
    exact calcularColorAntLoop_pos value (tabla edad) dicc cols none h
  · intro hle hc
    have := calcularColorAntLoop_skip value (tabla edad) dicc pre p (c :: suf) none hle
    simp only [calcular_color_ant]
    rw [show pre ++ p :: c :: suf = pre ++ [p] ++ (c :: suf) by simp, List.append_assoc,
      List.singleton_append] at this ⊢
    rw [this]
    simp only [calcularColorAntLoop, if_pos hc]

/-- Concrete instantiation of `c1_clasificador_bandas`: with boundaries
a ↦ 1, b ↦ 2, c ↦ 7 and value 5, the three cases produce the stated
outputs. -/
theorem c1_clasificador_bandas_witness :
    calcular_color_ant 5 (fun l => if l = "a" then 1 else if l = "b" then 2 else 7)
        ("c" :: ["x"]) id = (id "outlier_neg", none) ∧
    calcular_color_ant 5 (fun l => if l = "a" then 1 else if l = "b" then 2 else 7)
        ["a", "b"] id = (id "outlier_pos", some "outlier_pos") ∧
    calcular_color_ant 5 (fun l => if l = "a" then 1 else if l = "b" then 2 else 7)
        (["a"] ++ "b" :: "c" :: []) id = (id ("b" ++ "_" ++ "c"), some "b") := by
  obtain ⟨h1, h2, h3⟩ := c1_clasificador_bandas
    (fun _ l => if l = "a" then 1 else if l = "b" then 2 else 7) 0 5 id
    "c" "b" ["a"] ["x"] [] ["a", "b"]
  exact ⟨h1 (by decide), h2 (by decide), h3 (by decide) (by decide)⟩

/- ----------------------------------------------------------------- -/
/- Extended outlier thresholds: `calcular_color_ant_edad` lines 41-44 -/
/- ----------------------------------------------------------------- -/

/-- Lines 42-44 of `procesar_tablas_visualizacion.py`: on every row of the
z-score table, `medida_outlier = (des_1 - des_0) * 5`, the column
`outlier_neg` is inserted with value `des_0 - medida_outlier` and the
column `outlier_pos` appended with value `des_0 + medida_outlier`; all
other columns keep their values. -/
def agregarColumnasOutlier (fila : String → ℚ) : String → ℚ :=
  let medidaOutlier := (fila "des_1" - fila "des_0") * 5
  fun c =>
    if c = "outlier_neg" then fila "des_0" - medidaOutlier
    else if c = "outlier_pos" then fila "des_0" + medidaOutlier
    else fila c

/-- The whole-table form of the column insertion: the z-score table is a
list of `(days, row)` pairs and both outlier columns are added to every
row. -/
def agregarOutliersTabla (tabla : List (Nat × (String → ℚ))) : List (Nat × (String → ℚ)) :=
  tabla.map (fun r => (r.1, agregarColumnasOutlier r.2))

/-- The negative outlier bound as the spec words it: the boundary of the
first (lowest) label minus 5 times the gap between the second and first
labels' boundaries. -/
def specOutlierNegBound (etiquetas : List String) (fila : String → ℚ) : ℚ :=
  fila (etiquetas.headD "") -
    5 * (fila ((etiquetas.drop 1).headD "") - fila (etiquetas.headD ""))

/-- The positive outlier bound as the spec words it: the boundary of the
last (highest) label plus 5 times the gap between the second and first
labels' boundaries. -/
def specOutlierPosBound (etiquetas : List String) (fila : String → ℚ) : ℚ :=
  fila (etiquetas.getLastD "") +
    5 * (fila ((etiquetas.drop 1).headD "") - fila (etiquetas.headD ""))

/-- A concrete, strictly increasing Fenton boundary row:
(des_3Neg, des_2Neg, des_1Neg, des_0, des_1, des_2, des_3) =
(1, 2, 3, 4, 6, 7, 8). -/
def filaC3 : String → ℚ := fun c =>
  if c = "des_3Neg" then 1 else if c = "des_2Neg" then 2
  else if c = "des_1Neg" then 3 else if c = "des_0" then 4
  else if c = "des_1" then 6 else if c = "des_2" then 7 else 8

/-- C3 counterexample.  On the boundary row `filaC3` the bounds the code
computes (−6 and 14, centered on the median column `des_0`) differ from
the bounds the claim describes (−4 and 13, anchored at the first and last
labels). -/
theorem c3_umbral_outlier_counterexample :
    agregarColumnasOutlier filaC3 "outlier_neg" ≠
      specOutlierNegBound zScoreColsFenton filaC3 ∧
    agregarColumnasOutlier filaC3 "outlier_pos" ≠
      specOutlierPosBound zScoreColsFenton filaC3 := by
  constructor <;>
    · simp only [agregarColumnasOutlier, specOutlierNegBound, specOutlierPosBound,
        zScoreColsFenton]
      simp [filaC3]
      norm_num

/-- C3 (amended).  For every boundary table and every row (age) in it, the
extended outlier thresholds equal: negative bound = the `des_0` (median)
boundary minus 5 times the gap between the `des_1` and `des_0` boundaries,
and positive bound = the `des_0` boundary plus the same quantity, added
symmetrically around the median; every original label column is left
unchanged. -/
theorem c3_umbral_outlier_amended (tabla : List (Nat × (String → ℚ))) :
    List.Forall₂
      (fun r r2 =>
        r2.1 = r.1 ∧
        r2.2 "outlier_neg" = r.2 "des_0" - 5 * (r.2 "des_1" - r.2 "des_0") ∧
        r2.2 "outlier_pos" = r.2 "des_0" + 5 * (r.2 "des_1" - r.2 "des_0") ∧
        zScoreColsFenton.map r2.2 = zScoreColsFenton.map r.2 ∧
        zScoreColsWho.map r2.2 = zScoreColsWho.map r.2)
      tabla (agregarOutliersTabla tabla) := by
  unfold agregarOutliersTabla
  rw [List.forall₂_map_right_iff]
  rw [List.forall₂_same]
  intro r _
  refine ⟨rfl, by simp [agregarColumnasOutlier]; ring, by simp [agregarColumnasOutlier]; ring, ?_, ?_⟩
  · simp [zScoreColsFenton, agregarColumnasOutlier]
  · simp [zScoreColsWho, agregarColumnasOutlier]

/- ----------------------------------------------------------------- -/
/- Data model: patient and measurement rows                           -/
/- ----------------------------------------------------------------- -/

/-- A row of the measurement table (`antropometrias`): its DataFrame index
label `idx`, the patient key, the sequence index `AC_Num`, the corrected
age `AC_EG_Dias`, and the three growth variables. -/
structure Antropometria where
  idx : Nat
  pacienteId : Nat
  acNum : Nat
  egDias : Nat
  acPeso : ℚ
  acTalla : ℚ
  acPc : ℚ
deriving DecidableEq

/-- A row of the patient table (`pacientes`): its DataFrame index label
`idx`, the patient key and the sex code (`Iden_Sexo`; 1 = boys, 2 =
girls). -/
structure Paciente where
  idx : Nat
  pacienteId : Nat
  idenSexo : Nat
deriving DecidableEq

/-- The three growth variables (Peso, Talla, PC). -/
inductive VarAnt where
  | peso
  | talla
  | pc
deriving DecidableEq

/-- Column selection `AC_<var>` on a measurement row. -/
def antValor : VarAnt → Antropometria → ℚ
  | .peso, a => a.acPeso
  | .talla, a => a.acTalla
  | .pc, a => a.acPc

/-- `percentiles['fenton'][sexo][var].set_index('days')[['10']]` as a
lookup: sex code → variable → day → 10th-percentile value (`none` when
the table has no row for that exact day, i.e. an unmatched join). -/
def Percentiles : Type := Nat → VarAnt → Nat → Option ℚ

/-- `pacientes[pacientes['Iden_Sexo'] == id_sexo]['Paciente_ID']`. -/
def idsSexo (pacientes : List Paciente) (idSexo : Nat) : List Nat :=
  (pacientes.filter (fun p => p.idenSexo == idSexo)).map Paciente.pacienteId

/- ----------------------------------------------------------------- -/
/- Reference-system assignment: `calcular_color_antropometrias` 76-85 -/
/- ----------------------------------------------------------------- -/

/-- The age filter of `calcular_color_antropometrias`:
`AC_EG_Dias <= 280` when the percentile data is `'fenton'`, and
`AC_EG_Dias > 280` otherwise (`'who'`). -/
def filtroEdadSistema (datosPercentiles : String) (a : Antropometria) : Bool :=
  if datosPercentiles == "fenton" then decide (a.egDias ≤ 280)
  else decide (280 < a.egDias)

/-- `antropometrias[sex_filter & age_filter]`: the measurement rows of one
sex group handed to one reference system's classifier. -/
def filasAntSistema (pacientes : List Paciente) (ants : List Antropometria)
    (idSexo : Nat) (datosPercentiles : String) : List Antropometria :=
  ants.filter (fun a =>
    (idsSexo pacientes idSexo).contains a.pacienteId && filtroEdadSistema datosPercentiles a)

/-- C10.  Every measurement row of a sex group is assigned to exactly one
reference system by the fixed age cutoff: it goes to the Fenton rows iff
its corrected age in days is ≤ 280, to the WHO rows iff it is > 280, and
membership in the two filtered row sets is mutually exclusive, so each
growth variable classifies each row against exactly one system. -/
theorem c10_corte_edad_sistemas (pacientes : List Paciente) (ants : List Antropometria)
    (idSexo : Nat) (a : Antropometria) (ha : a ∈ ants)
    (hs : (idsSexo pacientes idSexo).contains a.pacienteId = true) :
    (a ∈ filasAntSistema pacientes ants idSexo "fenton" ↔ a.egDias ≤ 280) ∧
    (a ∈ filasAntSistema pacientes ants idSexo "who" ↔ 280 < a.egDias) ∧
    (a ∈ filasAntSistema pacientes ants idSexo "fenton" ↔
      ¬ a ∈ filasAntSistema pacientes ants idSexo "who") := by
  have hs2 : a.pacienteId ∈ idsSexo pacientes idSexo := by simpa using hs
  have hf : ∀ s, a ∈ filasAntSistema pacientes ants idSexo s ↔
      filtroEdadSistema s a = true := by
    intro s
    simp [filasAntSistema, List.mem_filter, ha, hs2]
  have h1 : a ∈ filasAntSistema pacientes ants idSexo "fenton" ↔ a.egDias ≤ 280 := by
    rw [hf]; simp [filtroEdadSistema]
  have h2 : a ∈ filasAntSistema pacientes ants idSexo "who" ↔ 280 < a.egDias := by
    rw [hf]; simp [filtroEdadSistema]
  exact ⟨h1, h2, by rw [h1, h2]; omega⟩

/-- Concrete instantiation of `c10_corte_edad_sistemas`: a girl's
measurement row at 200 days is in the Fenton group and not in the WHO
group. -/
theorem c10_corte_edad_sistemas_witness :
    (⟨0, 100, 0, 200, 3, 48, 33⟩ : Antropometria) ∈
      filasAntSistema [⟨0, 100, 2⟩] [⟨0, 100, 0, 200, 3, 48, 33⟩] 2 "fenton" ∧
    ¬ (⟨0, 100, 0, 200, 3, 48, 33⟩ : Antropometria) ∈
      filasAntSistema [⟨0, 100, 2⟩] [⟨0, 100, 0, 200, 3, 48, 33⟩] 2 "who" := by
  have h := c10_corte_edad_sistemas [⟨0, 100, 2⟩] [⟨0, 100, 0, 200, 3, 48, 33⟩] 2
    ⟨0, 100, 0, 200, 3, 48, 33⟩ (by decide) (by decide)
  exact ⟨h.1.mpr (by decide), h.2.2.mp (h.1.mpr (by decide))⟩

/- ----------------------------------------------------------------- -/
/- Growth-restriction flagging: `crear_bandera_rciu` / `_rceu`        -/
/- ----------------------------------------------------------------- -/

/-- The per-row threshold test of the flaggers: after the day-keyed join
against the 10th-percentile table, `ant_comp_df[var] < ant_comp_df['10']`.
An unmatched join leaves NaN in the `'10'` column and the comparison is
false. -/
def bajoPercentil10 (perc : Percentiles) (idSexo : Nat) (var : VarAnt)
    (a : Antropometria) : Bool :=
  match perc idSexo var a.egDias with
  | some v10 => decide (antValor var a < v10)
  | none => false

/-- C8.  Flagging is monotonic in the threshold direction: at the same age
and against the same percentile table, if a larger value is below the 10th
percentile then every smaller value is too. -/
theorem c8_monotonia_bandera (perc : Percentiles) (idSexo : Nat) (var : VarAnt)
    (a1 a2 : Antropometria) (hd : a1.egDias = a2.egDias)
    (hv : antValor var a1 < antValor var a2)
    (h2 : bajoPercentil10 perc idSexo var a2 = true) :
    bajoPercentil10 perc idSexo var a1 = true := by
  unfold bajoPercentil10 at h2 ⊢
  rw [hd]
  cases hcase : perc idSexo var a2.egDias with
  | none => rw [hcase] at h2; exact absurd h2 (by simp)
  | some v10 =>
    rw [hcase] at h2
    simp only [decide_eq_true_eq] at h2 ⊢
    exact lt_trans hv h2

/-- Concrete instantiation of `c8_monotonia_bandera`: at day 259 with 10th
percentile 2.6, weight 2.5 is flagged, hence weight 2.4 is flagged. -/
theorem c8_monotonia_bandera_witness :
    bajoPercentil10 (fun _ _ d => if d == 259 then some (26/10) else none) 1 .peso
      ⟨0, 7, 0, 259, 24/10, 46, 31⟩ = true := by
  have h := c8_monotonia_bandera (fun _ _ d => if d == 259 then some (26/10) else none) 1 .peso
    ⟨0, 7, 0, 259, 24/10, 46, 31⟩ ⟨1, 8, 0, 259, 25/10, 46, 31⟩ rfl
    (by norm_num [antValor]) (by norm_num [bajoPercentil10, antValor])
  exact h

lemma bajoPercentil10_iff (perc : Percentiles) (idSexo : Nat) (var : VarAnt)
    (a : Antropometria) :
    bajoPercentil10 perc idSexo var a = true ↔
      ∃ v10, perc idSexo var a.egDias = some v10 ∧ antValor var a < v10 := by
  unfold bajoPercentil10
  cases h : perc idSexo var a.egDias with
  | none => simp
  | some v10 => simp

lemma contains_true_iff (l : List Nat) (x : Nat) : l.contains x = true ↔ x ∈ l := by
  simp

lemma mem_idsSexo (pacientes : List Paciente) (idSexo : Nat) (x : Nat) :
    x ∈ idsSexo pacientes idSexo ↔
      ∃ q ∈ pacientes, q.idenSexo = idSexo ∧ q.pacienteId = x := by
  simp only [idsSexo, List.mem_map, List.mem_filter, beq_iff_eq]
  constructor
  · rintro ⟨q, ⟨hq, hsex⟩, hid⟩; exact ⟨q, hq, hsex, hid⟩
  · rintro ⟨q, hq, hsex, hid⟩; exact ⟨q, ⟨hq, hsex⟩, hid⟩

/-- `crear_bandera_rciu`'s per-sex selection and comparison (lines
214-220): the `Paciente_ID`s of the birth measurements (`AC_Num == 0`) of
patients of the given sex whose joined value is strictly below the 10th
percentile. -/
def idsRciuVarSexo (pacientes : List Paciente) (ants : List Antropometria)
    (perc : Percentiles) (var : VarAnt) (idSexo : Nat) : List Nat :=
  ((ants.filter (fun a =>
      (idsSexo pacientes idSexo).contains a.pacienteId && a.acNum == 0)).filter
    (fun a => bajoPercentil10 perc idSexo var a)).map Antropometria.pacienteId

/-- The final value of the column `RCIU_<var>` for one patient: created
`False`, then set `True` once per sex group (girls `Iden_Sexo = 2`, then
boys `Iden_Sexo = 1`) for the patients whose `Paciente_ID` is collected by
`idsRciuVarSexo`; since the updates only ever set `True`, the final cell
is the disjunction of the two sex passes. -/
def banderaRciuVar (pacientes : List Paciente) (ants : List Antropometria)
    (perc : Percentiles) (var : VarAnt) (p : Paciente) : Bool :=
  (idsRciuVarSexo pacientes ants perc var 2).contains p.pacienteId ||
  (idsRciuVarSexo pacientes ants perc var 1).contains p.pacienteId

/-- The three boolean columns `RCIU_Peso`, `RCIU_Talla`, `RCIU_PC`. -/
structure BanderasRciu where
  rciuPeso : Bool
  rciuTalla : Bool
  rciuPc : Bool
deriving DecidableEq

/-- Column selection on the flag record. -/
def seleccionarBanderaRciu : VarAnt → BanderasRciu → Bool
  | .peso, b => b.rciuPeso
  | .talla, b => b.rciuTalla
  | .pc, b => b.rciuPc

/-- `crear_bandera_rciu(pacientes, antropometrias, percentiles)`: the
patient table with the three `RCIU_*` columns attached (the outer loop
runs over all three variables and, inside it, over both sexes). -/
def crear_bandera_rciu (pacientes : List Paciente) (ants : List Antropometria)
    (perc : Percentiles) : List (Paciente × BanderasRciu) :=
  pacientes.map (fun p =>
    (p, ⟨banderaRciuVar pacientes ants perc .peso p,
         banderaRciuVar pacientes ants perc .talla p,
         banderaRciuVar pacientes ants perc .pc p⟩))

lemma mem_idsRciuVarSexo (pacientes : List Paciente) (ants : List Antropometria)
    (perc : Percentiles) (var : VarAnt) (idSexo : Nat) (x : Nat) :
    x ∈ idsRciuVarSexo pacientes ants perc var idSexo ↔
      ∃ a ∈ ants, a.pacienteId ∈ idsSexo pacientes idSexo ∧ a.acNum = 0 ∧
        bajoPercentil10 perc idSexo var a = true ∧ a.pacienteId = x := by
  simp only [idsRciuVarSexo, List.mem_map, List.mem_filter, Bool.and_eq_true, beq_iff_eq,
    contains_true_iff]
  constructor
  · rintro ⟨a, ⟨⟨ha, hsex, hnum⟩, hb⟩, hid⟩
    exact ⟨a, ha, hsex, hnum, hb, hid⟩
  · rintro ⟨a, ha, hsex, hnum, hb, hid⟩
    exact ⟨a, ⟨⟨ha, hsex, hnum⟩, hb⟩, hid⟩

lemma banderaRciuVar_iff (pacientes : List Paciente) (ants : List Antropometria)
    (perc : Percentiles) (var : VarAnt) (p : Paciente)
    (hnd : (pacientes.map Paciente.pacienteId).Nodup) (hp : p ∈ pacientes) :
    banderaRciuVar pacientes ants perc var p = true ↔
      (p.idenSexo = 2 ∨ p.idenSexo = 1) ∧
      ∃ a ∈ ants, a.pacienteId = p.pacienteId ∧ a.acNum = 0 ∧
        ∃ v10, perc p.idenSexo var a.egDias = some v10 ∧ antValor var a < v10 := by
  have key : ∀ s, p.pacienteId ∈ idsRciuVarSexo pacientes ants perc var s ↔
      p.idenSexo = s ∧ ∃ a ∈ ants, a.pacienteId = p.pacienteId ∧ a.acNum = 0 ∧
        bajoPercentil10 perc s var a = true := by
    intro s
    rw [mem_idsRciuVarSexo]
    constructor
    · rintro ⟨a, ha, hsex, hnum, hb, hid⟩
      obtain ⟨q, hq, hqs, hqid⟩ := (mem_idsSexo pacientes s a.pacienteId).mp hsex
      have : q = p := List.inj_on_of_nodup_map hnd hq hp (by rw [hqid, hid])
      subst this
      exact ⟨hqs, a, ha, hid, hnum, hb⟩
    · rintro ⟨hsex, a, ha, hid, hnum, hb⟩
      exact ⟨a, ha, (mem_idsSexo pacientes s a.pacienteId).mpr ⟨p, hp, hsex, hid.symm⟩,
        hnum, hb, hid⟩
  unfold banderaRciuVar
  rw [Bool.or_eq_true]
  simp only [contains_true_iff]
  rw [key 2, key 1]
  constructor
  · rintro (⟨hs, a, ha, hid, hnum, hb⟩ | ⟨hs, a, ha, hid, hnum, hb⟩) <;>
      exact ⟨by omega, a, ha, hid, hnum, by rw [hs]; exact (bajoPercentil10_iff _ _ _ _).mp hb⟩
  · rintro ⟨hs2 | hs1, a, ha, hid, hnum, hv⟩
    · exact Or.inl ⟨hs2, a, ha, hid, hnum, by
        rw [← hs2]; exact (bajoPercentil10_iff _ _ _ _).mpr hv⟩
    · exact Or.inr ⟨hs1, a, ha, hid, hnum, by
        rw [← hs1]; exact (bajoPercentil10_iff _ _ _ _).mpr hv⟩

/-- C6.  In `crear_bandera_rciu`, a patient's flag for a growth variable is
`true` exactly when the patient (of sex 1 or 2) has a birth measurement
(`AC_Num == 0`) whose age has an exact-day row in the 10th-percentile
table and whose value is strictly below it; in particular a patient with
no birth measurement, or whose birth measurements' ages all miss the
table, keeps the default `false` — silently, the function has no error or
report channel. -/
theorem c6_bandera_silenciosa (pacientes : List Paciente) (ants : List Antropometria)
    (perc : Percentiles) (p : Paciente) (b : BanderasRciu) (var : VarAnt)
    (hnd : (pacientes.map Paciente.pacienteId).Nodup)
    (hmem : (p, b) ∈ crear_bandera_rciu pacientes ants perc) :
    (seleccionarBanderaRciu var b = true ↔
      (p.idenSexo = 2 ∨ p.idenSexo = 1) ∧
      ∃ a ∈ ants, a.pacienteId = p.pacienteId ∧ a.acNum = 0 ∧
        ∃ v10, perc p.idenSexo var a.egDias = some v10 ∧ antValor var a < v10) ∧
    ((∀ a ∈ ants, a.pacienteId = p.pacienteId → a.acNum ≠ 0) →
      seleccionarBanderaRciu var b = false) ∧
    ((∀ a ∈ ants, a.pacienteId = p.pacienteId → perc p.idenSexo var a.egDias = none) →
      seleccionarBanderaRciu var b = false) := by
  obtain ⟨q, hq, hqe⟩ := List.mem_map.mp hmem
  have hqp : q = p := congrArg Prod.fst hqe
  have hp : p ∈ pacientes := hqp ▸ hq
  have hqb : (⟨banderaRciuVar pacientes ants perc .peso p,
      banderaRciuVar pacientes ants perc .talla p,
      banderaRciuVar pacientes ants perc .pc p⟩ : BanderasRciu) = b := by
    rw [← hqp]
    exact congrArg Prod.snd hqe
  have hb : seleccionarBanderaRciu var b = banderaRciuVar pacientes ants perc var p := by
    cases var <;> simp [seleccionarBanderaRciu, ← hqb]
  have hiff := banderaRciuVar_iff pacientes ants perc var p hnd hp
  rw [hb]
  refine ⟨hiff, ?_, ?_⟩
  · intro hno
    cases hcase : banderaRciuVar pacientes ants perc var p with
    | false => rfl
    | true =>
      obtain ⟨_, a, ha, hid, hnum, _⟩ := hiff.mp hcase
      exact absurd hnum (hno a ha hid)
  · intro hno
    cases hcase : banderaRciuVar pacientes ants perc var p with
    | false => rfl
    | true =>
      obtain ⟨_, a, ha, hid, _, v10, hperc, _⟩ := hiff.mp hcase
      rw [hno a ha hid] at hperc
      exact Option.noConfusion hperc

/-- Concrete instantiation of `c6_bandera_silenciosa` (the spec's
end-to-end scenario): a boy with birth weight 2400 at day 259 against a
10th percentile of 2600 at day 259 gets `RCIU_Peso = true`. -/
theorem c6_bandera_silenciosa_witness :
    seleccionarBanderaRciu .peso ⟨true, false, false⟩ = true := by
  have h := c6_bandera_silenciosa [⟨0, 7, 1⟩] [⟨0, 7, 0, 259, 2400, 46, 31⟩]
    (fun s v d => if s == 1 && d == 259 then
      (match v with | .peso => some 2600 | _ => none) else none)
    ⟨0, 7, 1⟩ ⟨true, false, false⟩ .peso (by decide) (by decide)
  exact h.1.mpr ⟨Or.inr rfl, ⟨0, 7, 0, 259, 2400, 46, 31⟩, by decide, rfl, rfl, 2600, rfl,
    by norm_num [antValor]⟩

/-- `crear_bandera_rceu`'s per-sex selection and comparison (lines
234-240): like the RCIU pass but on the arrival measurement
(`AC_Num == 1`), except that line 240 collects `ant_comp_df.index` — the
measurement rows' DataFrame index labels — instead of their
`Paciente_ID`s. -/
def idxsRceuVarSexo (pacientes : List Paciente) (ants : List Antropometria)
    (perc : Percentiles) (var : VarAnt) (idSexo : Nat) : List Nat :=
  ((ants.filter (fun a =>
      (idsSexo pacientes idSexo).contains a.pacienteId && a.acNum == 1)).filter
    (fun a => bajoPercentil10 perc idSexo var a)).map Antropometria.idx

/-- The final value of the `RCEU_Peso` cell of one patient row: line 241
tests `pacientes.index.isin(pacientes_rceu)`, i.e. it compares the patient
row's own index label against the collected measurement-row index labels;
as in the RCIU pass the two sex iterations combine by disjunction. -/
def banderaRceuPeso (pacientes : List Paciente) (ants : List Antropometria)
    (perc : Percentiles) (p : Paciente) : Bool :=
  (idxsRceuVarSexo pacientes ants perc .peso 2).contains p.idx ||
  (idxsRceuVarSexo pacientes ants perc .peso 1).contains p.idx

/-- The `RCEU_*` columns of the patient table; `none` models a column the
function never created. -/
structure BanderasRceu where
  rceuPeso : Option Bool
  rceuTalla : Option Bool
  rceuPc : Option Bool
deriving DecidableEq

/-- `crear_bandera_rceu(pacientes, antropometrias, percentiles)`.  The
`return pacientes` on line 242 sits inside the loop over the three
variables, so the function returns at the end of the first iteration:
only the `RCEU_Peso` column is created (both sexes of it are processed);
`RCEU_Talla` and `RCEU_PC` are never created (`none`). -/
def crear_bandera_rceu (pacientes : List Paciente) (ants : List Antropometria)
    (perc : Percentiles) : List (Paciente × BanderasRceu) :=
  pacientes.map (fun p => (p, ⟨some (banderaRceuPeso pacientes ants perc p), none, none⟩))

/-- C2 (code bug).  Evaluation of `crear_bandera_rceu` on a failing input:
patient 100 (table index 0) has the only arrival measurement
(`AC_Num == 1`, measurement-row index 1) and it is below the 10th
percentile for weight and for length; the claim then expects
`RCEU_Peso = RCEU_Talla = true` for patient 100 and `false` for patient
200, all three columns present.  Instead the code returns after the first
variable — the `RCEU_Talla` / `RCEU_PC` columns are never created — and,
because line 240 collects DataFrame index labels of the measurement table
and line 241 matches them against the patient table's index labels,
`RCEU_Peso` is set on patient 200 (patient-row index 1) rather than on
patient 100. -/
theorem c2_bandera_rceu_eval :
    crear_bandera_rceu [⟨0, 100, 2⟩, ⟨1, 200, 2⟩] [⟨1, 100, 1, 200, 5, 40, 30⟩]
        (fun idSexo v d => if idSexo == 2 && d == 200 then
          (match v with | .peso => some 10 | .talla => some 50 | .pc => some 20) else none) =
      [(⟨0, 100, 2⟩, ⟨some false, none, none⟩), (⟨1, 200, 2⟩, ⟨some true, none, none⟩)] := by
  decide

/- ----------------------------------------------------------------- -/
/- Weekly interpolation: `interpolar_antropometrias` (lines 106-139)  -/
/- ----------------------------------------------------------------- -/

/-- `antropometrias['Semana'] = (antropometrias['AC_EG_Dias'] // 7)`. -/
def semanaDe (d : Nat) : Nat := d / 7

/-- The week numbers of one patient's measurements `(AC_EG_Dias, value)`
for one growth variable. -/
def semanas (ms : List (Nat × ℚ)) : List Nat := ms.map (fun m => semanaDe m.1)

/-- The variable's values falling in week `w`. -/
def valoresSemana (ms : List (Nat × ℚ)) (w : Nat) : List ℚ :=
  (ms.filter (fun m => semanaDe m.1 == w)).map Prod.snd

/-- `groupby(['Paciente_ID','Semana']).mean()` restricted to one patient,
week and variable: the mean of the week's values, `none` when the week has
no measurement (the null introduced by the reindex step). -/
def promedioSemana (ms : List (Nat × ℚ)) (w : Nat) : Option ℚ :=
  let vs := valoresSemana ms w
  if vs.isEmpty then none else some (vs.sum / vs.length)

def minimoLista : List Nat → Option Nat
  | [] => none
  | x :: xs =>
    match minimoLista xs with
    | none => some x
    | some m => some (min x m)

def maximoLista : List Nat → Option Nat
  | [] => none
  | x :: xs =>
    match maximoLista xs with
    | none => some x
    | some m => some (max x m)

/-- `antropometrias_paciente.index.min()` (week component). -/
def semanaMin (ms : List (Nat × ℚ)) : Nat := (minimoLista (semanas ms)).getD 0

/-- `antropometrias_paciente.index.max()` (week component). -/
def semanaMax (ms : List (Nat × ℚ)) : Nat := (maximoLista (semanas ms)).getD 0

/-- The nearest observed week at or below `w`. -/
def semAnterior (ws : List Nat) (w : Nat) : Option Nat := maximoLista (ws.filter (· ≤ w))

/-- The nearest observed week at or above `w`. -/
def semSiguiente (ws : List Nat) (w : Nat) : Option Nat := minimoLista (ws.filter (w ≤ ·))

/-- `.reindex(idx).interpolate(method='linear')` at week `w` of the
complete range: an observed week keeps its weekly mean; a gap week gets
the linear interpolation between the two nearest bracketing observed
weeks (on the reindexed series the integer weeks are consecutive, so
pandas' positional linear interpolation coincides with interpolation in
the week coordinate). -/
def valorInterpolado (ms : List (Nat × ℚ)) (w : Nat) : Option ℚ :=
  match semAnterior (semanas ms) w, semSiguiente (semanas ms) w with
  | some w1, some w2 =>
    if w1 = w2 then promedioSemana ms w1
    else
      match promedioSemana ms w1, promedioSemana ms w2 with
      | some v1, some v2 =>
        some (v1 + (v2 - v1) * ((w : ℚ) - (w1 : ℚ)) / ((w2 : ℚ) - (w1 : ℚ)))
      | _, _ => none
  | _, _ => none

/-- `interpolar_antropometrias_paciente` (lines 118-130) together with the
post-processing of lines 135-138, for one patient and one variable: one
row per week from `semana_min` to `semana_max`, carrying the dense 0-based
`AC_Num` (the `cumcount` over the rows sorted by week), the recomputed
`AC_EG_Dias = Semana * 7`, and the interpolated value. -/
def interpolar_antropometrias_paciente (ms : List (Nat × ℚ)) : List (Nat × Nat × Option ℚ) :=
  (List.range (semanaMax ms + 1 - semanaMin ms)).map
    (fun i => (i, 7 * (semanaMin ms + i), valorInterpolado ms (semanaMin ms + i)))

lemma maximoLista_mem : ∀ {l : List Nat} {m : Nat}, maximoLista l = some m → m ∈ l := by
  intro l
  induction l with
  | nil => intro m h; simp [maximoLista] at h
  | cons x xs ih =>
    intro m h
    cases hx : maximoLista xs with
    | none => rw [maximoLista, hx] at h; simp at h; simp [h]
    | some k =>
      rw [maximoLista, hx] at h
      simp at h
      rcases max_choice x k with hm | hm <;> rw [hm] at h
      · simp [h]
      · exact List.mem_cons_of_mem x (h ▸ ih hx)

lemma minimoLista_mem : ∀ {l : List Nat} {m : Nat}, minimoLista l = some m → m ∈ l := by
  intro l
  induction l with
  | nil => intro m h; simp [minimoLista] at h
  | cons x xs ih =>
    intro m h
    cases hx : minimoLista xs with
    | none => rw [minimoLista, hx] at h; simp at h; simp [h]
    | some k =>
      rw [minimoLista, hx] at h
      simp at h
      rcases min_choice x k with hm | hm <;> rw [hm] at h
      · simp [h]
      · exact List.mem_cons_of_mem x (h ▸ ih hx)

lemma le_maximoLista_of_mem : ∀ {l : List Nat} {x : Nat}, x ∈ l →
    ∃ m, maximoLista l = some m ∧ x ≤ m := by
  intro l
  induction l with
  | nil => intro x h; simp at h
  | cons y ys ih =>
    intro x h
    rcases List.mem_cons.mp h with rfl | hx
    · cases hy : maximoLista ys with
      | none => exact ⟨x, by rw [maximoLista, hy], le_refl x⟩
      | some k => exact ⟨max x k, by rw [maximoLista, hy], le_max_left x k⟩
    · obtain ⟨k, hk, hle⟩ := ih hx
      exact ⟨max y k, by rw [maximoLista, hk], le_trans hle (le_max_right y k)⟩

lemma minimoLista_le_of_mem : ∀ {l : List Nat} {x : Nat}, x ∈ l →
    ∃ m, minimoLista l = some m ∧ m ≤ x := by
  intro l
  induction l with
  | nil => intro x h; simp at h
  | cons y ys ih =>
    intro x h
    rcases List.mem_cons.mp h with rfl | hx
    · cases hy : minimoLista ys with
      | none => exact ⟨x, by rw [minimoLista, hy], le_refl x⟩
      | some k => exact ⟨min x k, by rw [minimoLista, hy], min_le_left x k⟩
    · obtain ⟨k, hk, hle⟩ := ih hx
      exact ⟨min y k, by rw [minimoLista, hk], le_trans (min_le_right y k) hle⟩

lemma mem_semanas_of_promedio {ms : List (Nat × ℚ)} {w : Nat} {v : ℚ}
    (h : promedioSemana ms w = some v) : w ∈ semanas ms := by
  unfold promedioSemana at h
  by_cases he : (valoresSemana ms w).isEmpty
  · rw [if_pos he] at h; exact Option.noConfusion h
  · have hne : valoresSemana ms w ≠ [] := by
      intro hnil; exact he (by rw [hnil]; rfl)
    unfold valoresSemana at hne
    have : ms.filter (fun m => semanaDe m.1 == w) ≠ [] := by
      intro hnil; exact hne (by rw [hnil]; rfl)
    obtain ⟨m, hm⟩ := List.exists_mem_of_ne_nil _ this
    have hmem := (List.mem_filter.mp hm).1
    have heq : semanaDe m.1 = w := by
      have := (List.mem_filter.mp hm).2
      simpa using this
    exact List.mem_map.mpr ⟨m, hmem, heq⟩

lemma semAnterior_de_observada {ws : List Nat} {w : Nat} (hw : w ∈ ws) :
    semAnterior ws w = some w := by
  have hwf : w ∈ ws.filter (· ≤ w) := List.mem_filter.mpr ⟨hw, by simp⟩
  obtain ⟨m, hm, hle⟩ := le_maximoLista_of_mem hwf
  have hmw : m ≤ w := by
    have := (List.mem_filter.mp (maximoLista_mem hm)).2
    simpa using this
  have : m = w := le_antisymm hmw hle
  rw [semAnterior, hm, this]

lemma semSiguiente_de_observada {ws : List Nat} {w : Nat} (hw : w ∈ ws) :
    semSiguiente ws w = some w := by
  have hwf : w ∈ ws.filter (w ≤ ·) := List.mem_filter.mpr ⟨hw, by simp⟩
  obtain ⟨m, hm, hle⟩ := minimoLista_le_of_mem hwf
  have hmw : w ≤ m := by
    have := (List.mem_filter.mp (minimoLista_mem hm)).2
    simpa using this
  have : m = w := le_antisymm hle hmw
  rw [semSiguiente, hm, this]

lemma valorInterpolado_observado {ms : List (Nat × ℚ)} {w : Nat} {v : ℚ}
    (h : promedioSemana ms w = some v) : valorInterpolado ms w = some v := by
  have hw : w ∈ semanas ms := mem_semanas_of_promedio h
  rw [valorInterpolado, semAnterior_de_observada hw, semSiguiente_de_observada hw]
  simpa using h

/-- C5.  The interpolator: (i) for a patient measured only at week 0 with
value 3000 and week 4 with value 4000, the output is exactly the five
weeks 0..4 with values 3000, 3250, 3500, 3750, 4000; (ii) every observed
week keeps its exact (per-week averaged) visit value, so endpoint weeks
pass through unchanged; (iii) every output row carries the dense 0-based
sequence index equal to its position, the recomputed age-in-days
`7 × week`, and the linearly interpolated value at its week. -/
theorem c5_interpolacion_lineal :
    (interpolar_antropometrias_paciente [(0, 3000), (28, 4000)] =
      [(0, 0, some 3000), (1, 7, some 3250), (2, 14, some 3500),
       (3, 21, some 3750), (4, 28, some 4000)]) ∧
    (∀ (ms : List (Nat × ℚ)) (w : Nat) (v : ℚ), promedioSemana ms w = some v →
      valorInterpolado ms w = some v) ∧
    (∀ (ms : List (Nat × ℚ)) (i : Nat) (r : Nat × Nat × Option ℚ),
      (interpolar_antropometrias_paciente ms)[i]? = some r →
      r.1 = i ∧ r.2.1 = 7 * (semanaMin ms + i) ∧
        r.2.2 = valorInterpolado ms (semanaMin ms + i)) := by
  refine ⟨?_, ?_, ?_⟩
  · norm_num [interpolar_antropometrias_paciente, valorInterpolado, semanaMin, semanaMax,
      semanas, semanaDe, minimoLista, maximoLista, semAnterior, semSiguiente,
      promedioSemana, valoresSemana, List.range_succ]
  · intro ms w v h
    exact valorInterpolado_observado h
  · intro ms i r h
    unfold interpolar_antropometrias_paciente at h
    rw [List.getElem?_map] at h
    cases hr : (List.range (semanaMax ms + 1 - semanaMin ms))[i]? with
    | none => rw [hr] at h; exact Option.noConfusion h
    | some j =>
      rw [hr] at h
      have hj : j = i := by
        have hlen : i < semanaMax ms + 1 - semanaMin ms := by
          by_contra hcon
          rw [List.getElem?_eq_none (by simpa using le_of_not_lt hcon)] at hr
          exact Option.noConfusion hr
        rw [List.getElem?_range hlen] at hr
        exact (Option.some.injEq _ _ ▸ hr).symm
      have h2 : ((j : Nat), 7 * (semanaMin ms + j), valorInterpolado ms (semanaMin ms + j)) = r := by
        simpa using h
      rw [← h2, hj]
      exact ⟨rfl, rfl, rfl⟩

/-- Concrete instantiation of the quantified parts of
`c5_interpolacion_lineal`: the observed week 0 of the single measurement
`(0, 3000)` keeps its value, and row 1 of the round-trip example carries
index 1, age 7 and value 3250. -/
theorem c5_interpolacion_lineal_witness :
    valorInterpolado [((0 : Nat), (3000 : ℚ))] 0 = some 3000 ∧
    ((1 : Nat), (7 : Nat), some (3250 : ℚ)).1 = 1 := by
  constructor
  · exact c5_interpolacion_lineal.2.1 [(0, 3000)] 0 3000
      (by norm_num [promedioSemana, valoresSemana, semanaDe])
  · exact (c5_interpolacion_lineal.2.2 [(0, 3000), (28, 4000)] 1 (1, 7, some 3250)
      (by rw [c5_interpolacion_lineal.1]; rfl)).1

lemma maximoLista_const : ∀ {l : List Nat} {w : Nat}, l ≠ [] → (∀ x ∈ l, x = w) →
    maximoLista l = some w := by
  intro l
  induction l with
  | nil => intro w h _; exact absurd rfl h
  | cons x xs ih =>
    intro w _ hall
    have hx : x = w := hall x (by simp)
    cases hxs : maximoLista xs with
    | none => rw [maximoLista, hxs, hx]
    | some k =>
      have hk : k = w := hall k (List.mem_cons_of_mem x (maximoLista_mem hxs))
      rw [maximoLista, hxs, hx, hk]
      simp

lemma minimoLista_const : ∀ {l : List Nat} {w : Nat}, l ≠ [] → (∀ x ∈ l, x = w) →
    minimoLista l = some w := by
  intro l
  induction l with
  | nil => intro w h _; exact absurd rfl h
  | cons x xs ih =>
    intro w _ hall
    have hx : x = w := hall x (by simp)
    cases hxs : minimoLista xs with
    | none => rw [minimoLista, hxs, hx]
    | some k =>
      have hk : k = w := hall k (List.mem_cons_of_mem x (minimoLista_mem hxs))
      rw [minimoLista, hxs, hx, hk]
      simp

/-- C9.  A patient whose measurements all fall in one distinct week `w`
interpolates to the one-row series `[(0, 7*w, weekly mean)]`: the value is
the original per-week averaged value, passed through unchanged, with no
interpolation applied. -/
theorem c9_semana_unica (ms : List (Nat × ℚ)) (w : Nat) (hne : ms ≠ [])
    (hall : ∀ m ∈ ms, semanaDe m.1 = w) :
    interpolar_antropometrias_paciente ms = [(0, 7 * w, promedioSemana ms w)] := by
  have hsem_ne : semanas ms ≠ [] := by simp [semanas, hne]
  have hsem_all : ∀ x ∈ semanas ms, x = w := by
    intro x hx
    obtain ⟨m, hm, hmx⟩ := List.mem_map.mp hx
    rw [← hmx]
    exact hall m hm
  have hmin : minimoLista (semanas ms) = some w := minimoLista_const hsem_ne hsem_all
  have hmax : maximoLista (semanas ms) = some w := maximoLista_const hsem_ne hsem_all
  have hminD : semanaMin ms = w := by rw [semanaMin, hmin]; rfl
  have hmaxD : semanaMax ms = w := by rw [semanaMax, hmax]; rfl
  have hwmem : w ∈ semanas ms := minimoLista_mem hmin
  have hfil : ms.filter (fun m => semanaDe m.1 == w) = ms :=
    List.filter_eq_self.mpr (fun m hm => by simp [hall m hm])
  have hv : ¬ (valoresSemana ms w).isEmpty = true := by
    unfold valoresSemana
    rw [hfil]
    simpa using hne
  have hprom : promedioSemana ms w =
      some ((valoresSemana ms w).sum / ((valoresSemana ms w).length : ℚ)) := by
    unfold promedioSemana
    rw [if_neg hv]
  have hval := valorInterpolado_observado hprom
  unfold interpolar_antropometrias_paciente
  rw [hminD, hmaxD]
  have h1 : w + 1 - w = 1 := by omega
  rw [h1]
  simp only [List.range_succ, List.range_zero, List.nil_append, List.map_cons, List.map_nil,
    Nat.add_zero]
  rw [hval, hprom]

/-- Concrete instantiation of `c9_semana_unica`: a single measurement at
day 14 (week 2) with value 3000 interpolates to the one-row series
`[(0, 14, some 3000)]`. -/
theorem c9_semana_unica_witness :
    interpolar_antropometrias_paciente [((14 : Nat), (3000 : ℚ))] = [(0, 14, some 3000)] := by
  have h := c9_semana_unica [(14, 3000)] 2 (by decide) (by decide)
  rw [h]
  norm_num [promedioSemana, valoresSemana, semanaDe]

/- ----------------------------------------------------------------- -/
/- `filtros.py`: `filtrar_por_desviacion_estandar` (lines 214-245)    -/
/- ----------------------------------------------------------------- -/

/-- An element of the Python list `etiquetas_rango`: a plain label string
from the slice, or one of the nested lists that `list.append` adds as a
single element (lines 237 and 241 append a list, they do not extend). -/
inductive ElemEtiquetas where
  | str (s : String)
  | lst (xs : List (Option String))
deriving DecidableEq

/-- Python truthiness of `rango_ant['min']` / `rango_ant['max']` (`None` or
a string): only `None` and the empty string are falsy — label names and
sentinel strings such as `"none"` / `"nomin"` are truthy. -/
def esFalsy : Option String → Bool
  | none => true
  | some s => s == ""

/-- `etiquetas.index(r) if r in etiquetas else <default>`. -/
def indiceEtiqueta (r : Option String) (etiquetas : List String) (porDefecto : Nat) : Nat :=
  match r with
  | some s => if etiquetas.contains s then etiquetas.indexOf s else porDefecto
  | none => porDefecto

/-- Lines 229-241: the slice `etiquetas[indice_min : indice_max + 1]` of
the Fenton label ordering, followed by the two conditional `append`s of
nested lists. -/
def etiquetasRango (rmin rmax : Option String) : List ElemEtiquetas :=
  let etiquetas := zScoreColsFenton
  let indiceMin := indiceEtiqueta rmin etiquetas 0
  let indiceMax := indiceEtiqueta rmax etiquetas (etiquetas.length - 1)
  let base := ((etiquetas.drop indiceMin).take (indiceMax + 1 - indiceMin)).map ElemEtiquetas.str
  let conMin :=
    if esFalsy rmin then base ++ [ElemEtiquetas.lst [none, some "outlier_neg"]] else base
  if esFalsy rmax then conMin ++ [ElemEtiquetas.lst [some "outlier_pos"]] else conMin

/-- A row of the classified measurement table as this filter sees it: its
`AC_Num` and the cell of the selected band-label column `var_ant` (null
for a value below the lowest extended bound). -/
structure FilaBanda where
  acNum : Nat
  etiqueta : Option String
deriving DecidableEq

/-- One `isin` comparison: a cell equals a plain string element or not; it
never equals a nested-list element. -/
def celdaCoincide (x : Option String) : ElemEtiquetas → Bool
  | .str s => x == some s
  | .lst _ => false

def tieneLista (es : List ElemEtiquetas) : Bool :=
  es.any (fun e => match e with | .lst _ => true | .str _ => false)

/-- `filtrar_por_desviacion_estandar(df, rango_ant, var_ant)` restricted
to the selected label column: the returned index mask is true exactly for
the rows with `AC_Num == 0` whose cell is `isin` the computed
`etiquetas_rango`.  `none` models the `TypeError` pandas raises when
`etiquetas_rango` holds a nested (unhashable) list. -/
def filtrar_por_desviacion_estandar (df : List FilaBanda) (rmin rmax : Option String) :
    Option (List Bool) :=
  let es := etiquetasRango rmin rmax
  if tieneLista es then none
  else some (df.map (fun f => (f.acNum == 0) && es.any (celdaCoincide f.etiqueta)))

/-- C4 (code bug).  Evaluation of the standard-deviation birth-band filter
at the claim's configuration, min unbounded (sentinel `"none"`) and
max = `des_2Neg`: birth rows with a null or `outlier_neg` band get mask
`false`, although the claim (and the code's own comments on lines 235-239)
say they must be included; the in-range labels `des_3Neg`, `des_2Neg`
are kept and everything above `des_2Neg`, and every non-birth row, is
excluded.  With the other falsy reading of "unbounded" (`None`), `append`
puts a nested list into `etiquetas_rango` and `isin` raises instead. -/
theorem c4_filtro_desviacion_eval :
    filtrar_por_desviacion_estandar
        [⟨0, some "outlier_neg"⟩, ⟨0, none⟩, ⟨0, some "des_3Neg"⟩, ⟨0, some "des_2Neg"⟩,
         ⟨0, some "des_1Neg"⟩, ⟨1, some "des_3Neg"⟩]
        (some "none") (some "des_2Neg") =
      some [false, false, true, true, false, false] ∧
    filtrar_por_desviacion_estandar [⟨0, some "outlier_neg"⟩] none (some "des_2Neg") =
      none := by
  constructor <;> decide

/- ----------------------------------------------------------------- -/
/- `filtros.py`: `filtrar_outliers` (lines 178-196)                   -/
/- ----------------------------------------------------------------- -/

/-- A row of the classified measurement table as `filtrar_outliers` sees
it: the cells of the `<var>_min` and `<var>_max` columns per variable
name. -/
structure FilaOutliers where
  colMin : String → Option String
  colMax : String → Option String

/-- Line 193: the per-direction test — for `'outlier_neg'` the row is kept
when its `<var>_max` cell is not `'outlier_neg'`, otherwise when its
`<var>_min` cell is not `'outlier_pos'`. -/
def filtroRango (f : FilaOutliers) (v : String) (rango : String) : Bool :=
  if rango == "outlier_neg" then f.colMax v != some "outlier_neg"
  else f.colMin v != some "outlier_pos"

/-- One iteration of the outer loop over `variables_outliers['vars']`: the
inner loop over `rangos` rebinds `filtro` on every pass (its result is
discarded until the last one), and only then — one indentation level out —
`filtro_base = filtro_base & filtro` runs; `none` models the `NameError`
when `filtro` was never bound. -/
def pasoVarOutliers (f : FilaOutliers) (rangos : List String) (st : Bool × Option Bool)
    (v : String) : Option (Bool × Option Bool) :=
  let filtro := rangos.foldl (fun _ rango => some (filtroRango f v rango)) st.2
  match filtro with
  | none => none
  | some b => some (st.1 && b, some b)

/-- The mask value of one row: fold of `pasoVarOutliers` over the listed
variables, starting from the all-true base mask and an unbound `filtro`. -/
def filtrarOutliersFila (f : FilaOutliers) (vars rangos : List String) : Option Bool :=
  (List.foldlM (pasoVarOutliers f rangos) (true, none) vars).map Prod.fst

/-- `filtrar_outliers(df, variables_outliers)`: the boolean mask over the
rows. -/
def filtrar_outliers (df : List FilaOutliers) (vars rangos : List String) :
    Option (List Bool) :=
  df.mapM (fun f => filtrarOutliersFila f vars rangos)

/-- C7 (code bug).  Evaluation of the outlier filter with both directions
requested for `AC_Peso` on three rows — a negative outlier, a positive
outlier and an in-range row: the mask is `some [true, false, true]`, i.e.
the negative-outlier row is kept because only the last requested
direction's test survives the inner loop, although the claim says rows in
either direction are excluded simultaneously (`[false, false, true]`).
With the single direction `['outlier_neg']` the same negative-outlier row
is excluded, confirming that only the last direction takes effect. -/
theorem c7_filtrar_outliers_eval :
    filtrar_outliers
        [⟨fun _ => none, fun _ => some "outlier_neg"⟩,
         ⟨fun _ => some "outlier_pos", fun _ => some "des_3"⟩,
         ⟨fun _ => some "des_0", fun _ => some "des_1"⟩]
        ["AC_Peso"] ["outlier_neg", "outlier_pos"] =
      some [true, false, true] ∧
    filtrar_outliers [⟨fun _ => none, fun _ => some "outlier_neg"⟩]
        ["AC_Peso"] ["outlier_neg"] = some [false] := by
  constructor <;> rfl
